import Mathlib

/-!
# Shallow embedding of the fmsync-v2 stage/substage core

This file embeds the aggregation and classification logic of the
checklist-to-deal-stage module (`aggregateChecklistRowsByUser`,
`determineDealStage`, `determineSubstage`, and their string helpers
`normalize`, `truthy`, `toUserId`) as executable Lean definitions, and
proves properties about them.

JavaScript strings are modelled as Lean `String`; JS `null`/`undefined`
as `Option`; the JS `Map<number, DealView>` as a function
`Int → Option DealView`; a JS object used as a string-keyed boolean
record (`checklistsCompleted`) as a function `String → Bool` (a missing
key reads as falsy); the `itemStatus` array as a `List`.
-/

namespace FmSync

/-- JS whitespace characters recognized by `trim` (the common ASCII ones). -/
def isWsp (c : Char) : Bool :=
  c = ' ' || c = '\t' || c = '\n' || c = '\r' || c = '\x0b' || c = '\x0c'

/-- Model of `String.prototype.trim`: drop leading and trailing whitespace. -/
def jsTrim (s : String) : String :=
  ⟨((s.data.dropWhile isWsp).reverse.dropWhile isWsp).reverse⟩

/-- Model of `String.prototype.toLowerCase` (character-wise lowering). -/
def toLowerStr (s : String) : String :=
  ⟨s.data.map Char.toLower⟩

/-- Does the character list `l` start with the pattern `pat`? -/
def leadsWith : List Char → List Char → Bool
  | _, [] => true
  | [], _ :: _ => false
  | a :: as, b :: bs => a = b && leadsWith as bs

/-- Does the pattern `pat` occur contiguously inside `l`? -/
def occursIn (pat : List Char) : List Char → Bool
  | [] => pat.isEmpty
  | c :: rest => leadsWith (c :: rest) pat || occursIn pat rest

/-- Model of `String.prototype.includes`: `pat` is a substring of `s`. -/
def strIncludes (s pat : String) : Bool :=
  occursIn pat.data s.data

/-- `normalize` from the source: `null → ''`, otherwise `String(s).trim()`. -/
def normalize (s : Option String) : String :=
  match s with
  | none => ""
  | some str => jsTrim str

/-- `truthy` from the source:
`if (s == null || s === '') return false;`
`const t = String(s).trim().toLowerCase();`
`return t === 'true' || t === 'yes' || t === '1' || t.length > 0;` -/
def truthy (s : Option String) : Bool :=
  match s with
  | none => false
  | some str =>
    if str = "" then false
    else
      let t := toLowerStr (jsTrim str)
      t = "true" || t = "yes" || t = "1" || decide (0 < t.length)

/-- JS truthiness of a nullable string value (`if (x)`): non-null and non-empty. -/
def isTruthyStr (s : Option String) : Bool :=
  match s with
  | none => false
  | some str => !(str = "")

/-- Decimal value of the leading digit run of `l`, `none` when there is no digit. -/
def digitsVal (l : List Char) : Option Nat :=
  let ds := l.takeWhile Char.isDigit
  if ds.isEmpty then none
  else some (ds.foldl (fun acc c => acc * 10 + (c.toNat - 48)) 0)

/-- Model of JS `parseInt(s, 10)`: skip leading whitespace, optional sign,
then the leading decimal digit run; `NaN` (here `none`) if no digit follows. -/
def jsParseInt (s : String) : Option Int :=
  match s.data.dropWhile isWsp with
  | '-' :: rest => (digitsVal rest).map (fun n => -(n : Int))
  | '+' :: rest => (digitsVal rest).map (fun n => (n : Int))
  | l => (digitsVal l).map (fun n => (n : Int))

/-- The `user_id` cell as delivered by `pg`: a number, a string (BIGINT is
returned as a string), or SQL NULL / absent. -/
inductive UserIdVal where
  | num (n : Int)
  | str (s : String)
  | nullv
  deriving DecidableEq, Repr

/-- `toUserId` from the source: `null → null`; numbers pass through;
strings go through `parseInt(String(val), 10)` with a `NaN → null` guard. -/
def toUserId (val : UserIdVal) : Option Int :=
  match val with
  | .nullv => none
  | .num n => some n
  | .str s => jsParseInt s

/-- `ChecklistRowForStage` from the source (one raw checklist fact row). -/
structure ChecklistRowForStage where
  user_id : UserIdVal
  checklist_name : Option String
  checklist_item : Option String
  date_completed : Option String
  date_requested : Option String
  step_status : Option String
  candidate_decision : Option String
  school_decision : Option String
  inactive : Option String
  contract_publish_date : Option String
  contract_return_date : Option String
  contract_dep_rec_date : Option String
  test_no_show : Option String
  test_short_description : Option String
  deriving DecidableEq, Repr

/-- The `'requested' | 'complete'` status of an `itemStatus` entry. -/
inductive ItemStatusVal where
  | requested
  | complete
  deriving DecidableEq, Repr

/-- One entry of the `itemStatus` array: `{ name, status }`. -/
structure ItemEntry where
  name : String
  status : ItemStatusVal
  deriving DecidableEq, Repr

/-- `DealView` from the source: the aggregated per-user view. -/
structure DealView where
  user_id : Int
  checklistsCompleted : String → Bool
  itemStatus : List ItemEntry
  testNoShow : Bool
  testShortDescription : Option String
  candidate_decision : Option String
  school_decision : Option String
  inactive : Bool
  contract_publish_date : Option String
  contract_return_date : Option String
  contract_dep_rec_date : Option String

/-- Per-user aggregation state: the JS `Map<number, DealView>` viewed as a
lookup function (iteration order is never observed by the classifier). -/
def AggMap : Type := Int → Option DealView

/-- `r.step_status?.trim() || null`: trim when present, empty trims to null. -/
def stepStatusOf (r : ChecklistRowForStage) : Option String :=
  match r.step_status with
  | none => none
  | some s => let t := jsTrim s; if t = "" then none else some t

/-- `countsAsComplete`: `Boolean(r.date_completed || stepStatus === 'Completed' || stepStatus === 'Waived')`. -/
def countsAsComplete (r : ChecklistRowForStage) : Bool :=
  isTruthyStr r.date_completed
    || decide (stepStatusOf r = some "Completed")
    || decide (stepStatusOf r = some "Waived")

/-- The fresh `DealView` built when a user id is first seen (the object
literal in `aggregateChecklistRowsByUser`). -/
def initView (uid : Int) (r : ChecklistRowForStage) : DealView where
  user_id := uid
  checklistsCompleted := fun _ => false
  itemStatus := []
  testNoShow := false
  testShortDescription := r.test_short_description
  candidate_decision := r.candidate_decision
  school_decision := r.school_decision
  inactive := truthy r.inactive
  contract_publish_date := r.contract_publish_date
  contract_return_date := r.contract_return_date
  contract_dep_rec_date := r.contract_dep_rec_date

/-- `deal.checklistsCompleted[name] = true` on a string-keyed record. -/
def setCompleted (f : String → Bool) (name : String) : String → Bool :=
  fun n => if n = name then true else f n

/-- `existing.status = 'complete'`: mark the first entry named `name` complete. -/
def setItemComplete : List ItemEntry → String → List ItemEntry
  | [], _ => []
  | e :: rest, name =>
    if e.name = name then { e with status := .complete } :: rest
    else e :: setItemComplete rest name

/-- The `itemStatus` insert-or-upgrade step: push a new `{name, status}` when
the name is unseen, otherwise upgrade the existing entry to complete when the
new status is complete. -/
def pushOrUpgrade (l : List ItemEntry) (name : String) (st : ItemStatusVal) :
    List ItemEntry :=
  match l.find? (fun x => x.name = name) with
  | none => l ++ [⟨name, st⟩]
  | some _ => if st = .complete then setItemComplete l name else l

/-- The effect of one row on the `checklistsCompleted` record: the source sets
`deal.checklistsCompleted[checklistName] = true` when the checklist name is
non-empty and the row has a completion, then the same keyed by the item name. -/
def ccAfter (f : String → Bool) (r : ChecklistRowForStage) : String → Bool :=
  let cond := isTruthyStr r.date_completed || countsAsComplete r
  let f1 :=
    if !(normalize r.checklist_name = "") && cond then
      setCompleted f (normalize r.checklist_name)
    else f
  if !(normalize r.checklist_item = "") && cond then
    setCompleted f1 (normalize r.checklist_item)
  else f1

/-- The two `checklistsCompleted` writes (checklist name key, then item name key). -/
def updCheck (d : DealView) (r : ChecklistRowForStage) : DealView :=
  { d with checklistsCompleted := ccAfter d.checklistsCompleted r }

/-- The per-row status contributed to `itemStatus`: complete when the row
counts as complete, else requested when `date_requested` is set, else none. -/
def rowStatus (r : ChecklistRowForStage) : Option ItemStatusVal :=
  if countsAsComplete r then some .complete
  else if isTruthyStr r.date_requested then some .requested
  else none

/-- The effect of one row on `itemStatus`: when the item name is non-empty and
the row contributes a status, insert-or-upgrade the entry for that name. -/
def itemAfter (l : List ItemEntry) (r : ChecklistRowForStage) : List ItemEntry :=
  if !(normalize r.checklist_item = "") then
    match rowStatus r with
    | some st => pushOrUpgrade l (normalize r.checklist_item) st
    | none => l
  else l

/-- The `itemStatus` update of one row. -/
def updItemSt (d : DealView) (r : ChecklistRowForStage) : DealView :=
  { d with itemStatus := itemAfter d.itemStatus r }

/-- `if (truthy(r.test_no_show)) deal.testNoShow = true`. -/
def updTns (d : DealView) (r : ChecklistRowForStage) : DealView :=
  { d with testNoShow := if truthy r.test_no_show then true else d.testNoShow }

/-- `if (r.test_short_description) deal.testShortDescription = r.test_short_description`. -/
def updTsd (d : DealView) (r : ChecklistRowForStage) : DealView :=
  { d with testShortDescription :=
      if isTruthyStr r.test_short_description then r.test_short_description
      else d.testShortDescription }

/-- The "`x != null` assignment" reducer: a non-null incoming value overwrites,
a null one keeps the accumulated value. -/
def lnnStep (acc v : Option String) : Option String :=
  match v with
  | some x => some x
  | none => acc

/-- `if (r.candidate_decision != null) deal.candidate_decision = r.candidate_decision`. -/
def updCd (d : DealView) (r : ChecklistRowForStage) : DealView :=
  { d with candidate_decision := lnnStep d.candidate_decision r.candidate_decision }

/-- `if (r.school_decision != null) deal.school_decision = r.school_decision`. -/
def updSd (d : DealView) (r : ChecklistRowForStage) : DealView :=
  { d with school_decision := lnnStep d.school_decision r.school_decision }

/-- `if (r.inactive != null) deal.inactive = deal.inactive || truthy(r.inactive)`. -/
def updInact (d : DealView) (r : ChecklistRowForStage) : DealView :=
  { d with inactive :=
      match r.inactive with
      | some _ => d.inactive || truthy r.inactive
      | none => d.inactive }

/-- `if (r.contract_publish_date != null) deal.contract_publish_date = ...`. -/
def updCpd (d : DealView) (r : ChecklistRowForStage) : DealView :=
  { d with contract_publish_date := lnnStep d.contract_publish_date r.contract_publish_date }

/-- `if (r.contract_return_date != null) deal.contract_return_date = ...`. -/
def updCrd (d : DealView) (r : ChecklistRowForStage) : DealView :=
  { d with contract_return_date := lnnStep d.contract_return_date r.contract_return_date }

/-- `if (r.contract_dep_rec_date != null) deal.contract_dep_rec_date = ...`. -/
def updCdr (d : DealView) (r : ChecklistRowForStage) : DealView :=
  { d with contract_dep_rec_date := lnnStep d.contract_dep_rec_date r.contract_dep_rec_date }

/-- The whole body of the per-row loop applied to an existing (or fresh) view,
in the source's statement order. -/
def updateView (d : DealView) (r : ChecklistRowForStage) : DealView :=
  updCdr (updCrd (updCpd (updInact (updSd (updCd (updTsd (updTns (updItemSt (updCheck d r) r) r) r) r) r) r) r) r) r

/-- One iteration of the `for (const r of rows)` loop: skip rows whose user id
does not normalize, otherwise get-or-create the user's view and update it. -/
def stepRow (m : AggMap) (r : ChecklistRowForStage) : AggMap :=
  match toUserId r.user_id with
  | none => m
  | some uid =>
    let base := match m uid with
      | some d => d
      | none => initView uid r
    fun k => if k = uid then some (updateView base r) else m k

/-- `aggregateChecklistRowsByUser` from the source: fold all rows into the map. -/
def aggregateChecklistRowsByUser (rows : List ChecklistRowForStage) : AggMap :=
  rows.foldl stepRow (fun _ => none)

/-- The checklist labels used by the classifier. -/
def APPLICATION_FORM : String := "Application Form"

/-- The "Decision" checklist label. -/
def DECISION : String := "Decision"

/-- The "Enrollment Contract Received" checklist label. -/
def ENROLLMENT_CONTRACT_RECEIVED : String := "Enrollment Contract Received"

/-- The "Fairmont Admissions Assessment" item label. -/
def FAIRMONT_ADMISSIONS_ASSESSMENT : String := "Fairmont Admissions Assessment"

/-- The "Fairmont Admissions Re-Assessment" item label. -/
def FAIRMONT_ADMISSIONS_RE_ASSESSMENT : String := "Fairmont Admissions Re-Assessment"

/-- `determineDealStage` from the source: ordered guards, first match wins. -/
def determineDealStage (deal : DealView) : Option String :=
  if deal.inactive then some "Closed Lost"
  else if normalize deal.candidate_decision = "I Decline"
      || normalize deal.school_decision = "Denied" then some "Closed Lost"
  else if deal.checklistsCompleted ENROLLMENT_CONTRACT_RECEIVED then some "Closed Won"
  else if isTruthyStr deal.contract_publish_date then some "Contract Sent"
  else if deal.checklistsCompleted DECISION then some "Decision"
  else if deal.checklistsCompleted APPLICATION_FORM then some "Application"
  else none

/-- The fuzzy `itemStatus` lookup inside `determineSubstage`: exact name match
or bidirectional substring containment, first matching entry wins. -/
def itemStatusFuzzy (deal : DealView) (name : String) : Option ItemStatusVal :=
  (deal.itemStatus.find? fun x =>
      x.name = name || strIncludes x.name name || strIncludes name x.name).map
    (fun x => x.status)

/-- The rule-28 guard of `determineSubstage`:
`deal.inactive || cd === 'I Decline' || sd === 'Denied'`. -/
def closedLostB (deal : DealView) : Bool :=
  deal.inactive || normalize deal.candidate_decision = "I Decline"
    || normalize deal.school_decision = "Denied"

/-- Rules 26 down to 14 of `determineSubstage` (everything after the two
terminal rules), first match wins. -/
def determineSubstageRest (deal : DealView) : Option Nat :=
  if normalize deal.school_decision = "Waitlist w/ Deposit Paid" then some 26
  else if !(deal.checklistsCompleted ENROLLMENT_CONTRACT_RECEIVED)
      && deal.contract_return_date.isSome
      && (deal.contract_dep_rec_date.isNone || deal.contract_dep_rec_date = some "") then some 25
  else if normalize deal.school_decision = "Accepted w/ Conditions" then some 24
  else if normalize deal.school_decision = "Accepted" then some 23
  else if normalize deal.school_decision = "Waitlist" then some 21
  else if itemStatusFuzzy deal FAIRMONT_ADMISSIONS_RE_ASSESSMENT = some .complete then some 20
  else if deal.testNoShow
      && strIncludes (normalize deal.testShortDescription) "Re-Assessment" then some 19
  else if itemStatusFuzzy deal FAIRMONT_ADMISSIONS_RE_ASSESSMENT = some .requested then some 18
  else if itemStatusFuzzy deal FAIRMONT_ADMISSIONS_ASSESSMENT = some .complete then some 17
  else if deal.testNoShow
      && strIncludes (normalize deal.testShortDescription) "Assessment"
      && !(strIncludes (normalize deal.testShortDescription) "Re-Assessment") then some 16
  else if itemStatusFuzzy deal FAIRMONT_ADMISSIONS_ASSESSMENT = some .requested then some 15
  else if deal.checklistsCompleted APPLICATION_FORM then some 14
  else none

/-- `determineSubstage` from the source: rules evaluated from 28 down to 14,
first match wins; 22 and 13 are never produced. -/
def determineSubstage (deal : DealView) : Option Nat :=
  if closedLostB deal then some 28
  else if deal.checklistsCompleted ENROLLMENT_CONTRACT_RECEIVED then some 27
  else determineSubstageRest deal

/-! ## Observers on the aggregation map and per-row contributions -/

/-- Does the row belong to the model person `uid` after id normalization? -/
def pMatch (uid : Int) (r : ChecklistRowForStage) : Bool :=
  toUserId r.user_id = some uid

/-- Was a `DealView` created for `uid`? -/
def obsSome (m : AggMap) (uid : Int) : Bool :=
  (m uid).isSome

/-- The aggregated `inactive` flag of `uid` (false when no view exists). -/
def obsInactive (m : AggMap) (uid : Int) : Bool :=
  match m uid with
  | some d => d.inactive
  | none => false

/-- The aggregated `testNoShow` flag of `uid` (false when no view exists). -/
def obsTns (m : AggMap) (uid : Int) : Bool :=
  match m uid with
  | some d => d.testNoShow
  | none => false

/-- The aggregated `checklistsCompleted` entry of `uid` at `name`. -/
def obsCC (m : AggMap) (uid : Int) (name : String) : Bool :=
  match m uid with
  | some d => d.checklistsCompleted name
  | none => false

/-- Exact-name lookup in an `itemStatus` list (the aggregator's own `find`). -/
def itemLookup (l : List ItemEntry) (name : String) : Option ItemStatusVal :=
  (l.find? fun x => x.name = name).map (fun x => x.status)

/-- The aggregated `itemStatus` entry of `uid` at `name` (none when absent). -/
def obsItem (m : AggMap) (uid : Int) (name : String) : Option ItemStatusVal :=
  match m uid with
  | some d => itemLookup d.itemStatus name
  | none => none

/-- Whether one row makes `checklistsCompleted[name]` true: the name is the
row's non-empty normalized checklist name or item name and the row completes. -/
def rowCompletes (r : ChecklistRowForStage) (name : String) : Bool :=
  (!(normalize r.checklist_name = "")
      && (isTruthyStr r.date_completed || countsAsComplete r)
      && (name = normalize r.checklist_name))
    || (!(normalize r.checklist_item = "")
      && (isTruthyStr r.date_completed || countsAsComplete r)
      && (name = normalize r.checklist_item))

/-- The `itemStatus` contribution of one row at `name`. -/
def contribOf (r : ChecklistRowForStage) (name : String) : Option ItemStatusVal :=
  if !(name = "") && (normalize r.checklist_item = name) then rowStatus r else none

/-- Join of an accumulated item status with a new contribution: a complete
contribution upgrades, a requested one never downgrades, none changes nothing. -/
def joinSt (a b : Option ItemStatusVal) : Option ItemStatusVal :=
  match a, b with
  | a, none => a
  | none, some st => some st
  | some _, some .complete => some .complete
  | some a', some .requested => some a'

/-- Join over a whole contribution list: complete when any contribution is
complete, else requested when any is requested, else none. -/
def joinAll (l : List (Option ItemStatusVal)) : Option ItemStatusVal :=
  if l.any (fun x => x = some ItemStatusVal.complete) then some .complete
  else if l.any (fun x => x = some ItemStatusVal.requested) then some .requested
  else none

/-- Fold of `lnnStep` from `none`: the last non-null value of the list. -/
def lastNonNull (l : List (Option String)) : Option String :=
  l.foldl lnnStep none

/-- One step of the `testShortDescription` reduction: the first row of a person
initializes the field unconditionally; afterwards only truthy (non-null,
non-empty) values overwrite. -/
def tsdStep (acc : Option (Option String)) (v : Option String) :
    Option (Option String) :=
  match acc with
  | none => some v
  | some c => some (if isTruthyStr v then v else c)

/-- The aggregated `testShortDescription` of `uid`, `none` when no view exists. -/
def obsTsd (m : AggMap) (uid : Int) : Option (Option String) :=
  (m uid).map (fun d => d.testShortDescription)

/-- The aggregated value of an optional-string field of `uid`'s view
(null when no view exists). -/
def obsOpt (F : DealView → Option String) (m : AggMap) (uid : Int) : Option String :=
  match m uid with
  | some d => F d
  | none => none

/-- The aggregated `candidate_decision` of `uid` (null when no view exists). -/
def obsCd : AggMap → Int → Option String :=
  obsOpt fun d => d.candidate_decision

/-- The aggregated `school_decision` of `uid` (null when no view exists). -/
def obsSd : AggMap → Int → Option String :=
  obsOpt fun d => d.school_decision

/-- The aggregated `contract_publish_date` of `uid` (null when no view exists). -/
def obsCpd : AggMap → Int → Option String :=
  obsOpt fun d => d.contract_publish_date

/-- The aggregated `contract_return_date` of `uid` (null when no view exists). -/
def obsCrd : AggMap → Int → Option String :=
  obsOpt fun d => d.contract_return_date

/-- The aggregated `contract_dep_rec_date` of `uid` (null when no view exists). -/
def obsCdr : AggMap → Int → Option String :=
  obsOpt fun d => d.contract_dep_rec_date

/-! ## Field equations for a single row update -/

lemma updateView_itemStatus (d : DealView) (r : ChecklistRowForStage) :
    (updateView d r).itemStatus = itemAfter d.itemStatus r := rfl

lemma updateView_checklists (d : DealView) (r : ChecklistRowForStage) :
    (updateView d r).checklistsCompleted = ccAfter d.checklistsCompleted r := rfl

lemma updateView_tsd (d : DealView) (r : ChecklistRowForStage) :
    (updateView d r).testShortDescription
      = if isTruthyStr r.test_short_description then r.test_short_description
        else d.testShortDescription := rfl

lemma updateView_cd (d : DealView) (r : ChecklistRowForStage) :
    (updateView d r).candidate_decision
      = lnnStep d.candidate_decision r.candidate_decision := rfl

lemma updateView_sd (d : DealView) (r : ChecklistRowForStage) :
    (updateView d r).school_decision
      = lnnStep d.school_decision r.school_decision := rfl

lemma updateView_cpd (d : DealView) (r : ChecklistRowForStage) :
    (updateView d r).contract_publish_date
      = lnnStep d.contract_publish_date r.contract_publish_date := rfl

lemma updateView_crd (d : DealView) (r : ChecklistRowForStage) :
    (updateView d r).contract_return_date
      = lnnStep d.contract_return_date r.contract_return_date := rfl

lemma updateView_cdr (d : DealView) (r : ChecklistRowForStage) :
    (updateView d r).contract_dep_rec_date
      = lnnStep d.contract_dep_rec_date r.contract_dep_rec_date := rfl

lemma truthy_none : truthy none = false := rfl

lemma updateView_inactive (d : DealView) (r : ChecklistRowForStage) :
    (updateView d r).inactive = (d.inactive || truthy r.inactive) := by
  have h : (updateView d r).inactive
      = match r.inactive with
        | some _ => d.inactive || truthy r.inactive
        | none => d.inactive := rfl
  rw [h]
  cases hi : r.inactive with
  | none => simp [truthy_none]
  | some v => rfl

lemma updateView_tns (d : DealView) (r : ChecklistRowForStage) :
    (updateView d r).testNoShow = (d.testNoShow || truthy r.test_no_show) := by
  have h : (updateView d r).testNoShow
      = if truthy r.test_no_show then true else d.testNoShow := rfl
  rw [h]
  cases ht : truthy r.test_no_show <;> simp

lemma ccAfter_point (f : String → Bool) (r : ChecklistRowForStage) (n : String) :
    ccAfter f r n = (f n || rowCompletes r n) := by
  by_cases h1 : normalize r.checklist_name = "" <;>
    by_cases h2 : normalize r.checklist_item = "" <;>
    by_cases hn1 : n = normalize r.checklist_name <;>
    by_cases hn2 : n = normalize r.checklist_item <;>
    cases hc : (isTruthyStr r.date_completed || countsAsComplete r) <;>
    simp_all [ccAfter, setCompleted, rowCompletes]

/-! ## Step and fold lemmas for the Bool observers -/

lemma obsSome_step (m : AggMap) (r : ChecklistRowForStage) (uid : Int) :
    obsSome (stepRow m r) uid = (obsSome m uid || pMatch uid r) := by
  unfold obsSome stepRow pMatch
  cases htu : toUserId r.user_id with
  | none => simp
  | some u =>
    by_cases hu : uid = u
    · subst hu
      simp
    · simp [hu, Ne.symm hu]

lemma obsInactive_step (m : AggMap) (r : ChecklistRowForStage) (uid : Int) :
    obsInactive (stepRow m r) uid
      = (obsInactive m uid || (pMatch uid r && truthy r.inactive)) := by
  unfold obsInactive stepRow pMatch
  cases htu : toUserId r.user_id with
  | none => simp
  | some u =>
    by_cases hu : uid = u
    · subst hu
      cases hm : m uid <;> simp [hm, updateView_inactive, initView]
    · simp [hu, Ne.symm hu]

lemma obsTns_step (m : AggMap) (r : ChecklistRowForStage) (uid : Int) :
    obsTns (stepRow m r) uid
      = (obsTns m uid || (pMatch uid r && truthy r.test_no_show)) := by
  unfold obsTns stepRow pMatch
  cases htu : toUserId r.user_id with
  | none => simp
  | some u =>
    by_cases hu : uid = u
    · subst hu
      cases hm : m uid <;> simp [hm, updateView_tns, initView]
    · simp [hu, Ne.symm hu]

lemma obsCC_step (m : AggMap) (r : ChecklistRowForStage) (uid : Int) (name : String) :
    obsCC (stepRow m r) uid name
      = (obsCC m uid name || (pMatch uid r && rowCompletes r name)) := by
  unfold obsCC stepRow pMatch
  cases htu : toUserId r.user_id with
  | none => simp
  | some u =>
    by_cases hu : uid = u
    · subst hu
      cases hm : m uid <;>
        simp [hm, updateView_checklists, ccAfter_point, initView]
    · simp [hu, Ne.symm hu]

lemma foldl_obs {γ : Type} (obs : AggMap → γ) (f : γ → ChecklistRowForStage → γ)
    (hstep : ∀ m r, obs (stepRow m r) = f (obs m) r) :
    ∀ (rows : List ChecklistRowForStage) (m : AggMap),
      obs (rows.foldl stepRow m) = rows.foldl f (obs m) := by
  intro rows
  induction rows with
  | nil => intro m; rfl
  | cons r rest ih =>
    intro m
    simp only [List.foldl_cons]
    rw [ih (stepRow m r), hstep]

lemma foldl_or_any {α : Type} (q : α → Bool) :
    ∀ (l : List α) (a : Bool), l.foldl (fun acc r => acc || q r) a = (a || l.any q) := by
  intro l
  induction l with
  | nil => intro a; simp
  | cons x xs ih => intro a; simp [ih, Bool.or_assoc]

/-! ## Extensional characterizations of the aggregated Bool fields -/

lemma obsSome_spec (rows : List ChecklistRowForStage) (uid : Int) :
    obsSome (aggregateChecklistRowsByUser rows) uid = rows.any (pMatch uid) := by
  unfold aggregateChecklistRowsByUser
  rw [foldl_obs (fun m => obsSome m uid) (fun acc r => acc || pMatch uid r)
      (fun m r => obsSome_step m r uid) rows, foldl_or_any]
  rfl

lemma obsInactive_spec (rows : List ChecklistRowForStage) (uid : Int) :
    obsInactive (aggregateChecklistRowsByUser rows) uid
      = rows.any (fun r => pMatch uid r && truthy r.inactive) := by
  unfold aggregateChecklistRowsByUser
  rw [foldl_obs (fun m => obsInactive m uid)
      (fun acc r => acc || (pMatch uid r && truthy r.inactive))
      (fun m r => obsInactive_step m r uid) rows, foldl_or_any]
  rfl

lemma obsTns_spec (rows : List ChecklistRowForStage) (uid : Int) :
    obsTns (aggregateChecklistRowsByUser rows) uid
      = rows.any (fun r => pMatch uid r && truthy r.test_no_show) := by
  unfold aggregateChecklistRowsByUser
  rw [foldl_obs (fun m => obsTns m uid)
      (fun acc r => acc || (pMatch uid r && truthy r.test_no_show))
      (fun m r => obsTns_step m r uid) rows, foldl_or_any]
  rfl

lemma obsCC_spec (rows : List ChecklistRowForStage) (uid : Int) (name : String) :
    obsCC (aggregateChecklistRowsByUser rows) uid name
      = rows.any (fun r => pMatch uid r && rowCompletes r name) := by
  unfold aggregateChecklistRowsByUser
  rw [foldl_obs (fun m => obsCC m uid name)
      (fun acc r => acc || (pMatch uid r && rowCompletes r name))
      (fun m r => obsCC_step m r uid name) rows, foldl_or_any]
  rfl

/-! ## The itemStatus insert-or-upgrade machinery -/

lemma itemLookup_nil (name : String) : itemLookup [] name = none := rfl

lemma itemLookup_cons (e : ItemEntry) (l : List ItemEntry) (name : String) :
    itemLookup (e :: l) name
      = if e.name = name then some e.status else itemLookup l name := by
  by_cases h : e.name = name <;> simp [itemLookup, List.find?, h]

lemma itemLookup_append_single (l : List ItemEntry) (e : ItemEntry) (name : String) :
    itemLookup (l ++ [e]) name
      = match itemLookup l name with
        | some s => some s
        | none => if e.name = name then some e.status else none := by
  induction l with
  | nil => simp [itemLookup_cons, itemLookup_nil]
  | cons a l ih =>
    by_cases h : a.name = name <;>
      simp [List.cons_append, itemLookup_cons, h, ih]

lemma setItemComplete_lookup_self (l : List ItemEntry) (name : String) :
    ∀ e, itemLookup l name = some e →
      itemLookup (setItemComplete l name) name = some ItemStatusVal.complete := by
  induction l with
  | nil => intro e h; simp [itemLookup_nil] at h
  | cons a l ih =>
    intro e h
    by_cases ha : a.name = name
    · simp [setItemComplete, ha, itemLookup_cons]
    · rw [itemLookup_cons, if_neg ha] at h
      simp only [setItemComplete, if_neg ha]
      rw [itemLookup_cons, if_neg ha]
      exact ih e h

lemma setItemComplete_lookup_ne (l : List ItemEntry) (k n : String) (hne : ¬ k = n) :
    itemLookup (setItemComplete l k) n = itemLookup l n := by
  induction l with
  | nil => rfl
  | cons a l ih =>
    by_cases ha : a.name = k
    · have han : ¬ a.name = n := by rw [ha]; exact hne
      simp [setItemComplete, ha, itemLookup_cons, han, hne]
    · simp [setItemComplete, ha, itemLookup_cons, ih]

lemma find?_name_eq_lookup (l : List ItemEntry) (name : String) :
    (l.find? fun x => x.name = name) = none ↔ itemLookup l name = none := by
  simp [itemLookup]

lemma pushOrUpgrade_lookup_self (l : List ItemEntry) (name : String) (st : ItemStatusVal) :
    itemLookup (pushOrUpgrade l name st) name
      = joinSt (itemLookup l name) (some st) := by
  unfold pushOrUpgrade
  cases hf : l.find? (fun x => x.name = name) with
  | none =>
    have hl : itemLookup l name = none := by
      simpa [itemLookup] using congrArg (Option.map fun x => x.status) hf
    rw [itemLookup_append_single, hl]
    simp [joinSt]
  | some e =>
    have hl : itemLookup l name = some e.status := by
      simp [itemLookup, hf]
    cases st with
    | complete =>
      rw [if_pos rfl, setItemComplete_lookup_self l name e.status hl, hl]
      cases e.status <;> rfl
    | requested =>
      have hrc : ¬ (ItemStatusVal.requested = ItemStatusVal.complete) := by decide
      rw [if_neg hrc, hl]
      cases e.status <;> rfl

lemma pushOrUpgrade_lookup_ne (l : List ItemEntry) (k n : String) (st : ItemStatusVal)
    (hne : ¬ k = n) :
    itemLookup (pushOrUpgrade l k st) n = itemLookup l n := by
  unfold pushOrUpgrade
  cases hf : l.find? (fun x => x.name = k) with
  | none =>
    rw [itemLookup_append_single]
    simp [hne]
    cases itemLookup l n <;> rfl
  | some e =>
    cases st with
    | complete =>
      simp only [if_pos rfl]
      exact setItemComplete_lookup_ne l k n hne
    | requested =>
      have : ¬ (ItemStatusVal.requested = ItemStatusVal.complete) := by decide
      rw [if_neg this]

lemma joinSt_none_right (a : Option ItemStatusVal) : joinSt a none = a := by
  cases a <;> rfl

lemma itemLookup_itemAfter (l : List ItemEntry) (r : ChecklistRowForStage) (name : String) :
    itemLookup (itemAfter l r) name = joinSt (itemLookup l name) (contribOf r name) := by
  unfold itemAfter contribOf
  by_cases hin : normalize r.checklist_item = ""
  · by_cases hname : name = ""
    · simp [hin, hname, joinSt_none_right]
    · have h2 : ¬ ("" = name) := fun h => hname h.symm
      simp [hin, hname, h2, joinSt_none_right]
  · cases hst : rowStatus r with
    | none =>
      simp [hin, hst, joinSt_none_right, ite_self]
    | some st =>
      by_cases heq : normalize r.checklist_item = name
      · subst heq
        simp [hin, pushOrUpgrade_lookup_self]
      · simp [hin, hst, heq, joinSt_none_right, pushOrUpgrade_lookup_ne _ _ _ st heq]

lemma obsItem_step (m : AggMap) (r : ChecklistRowForStage) (uid : Int) (name : String) :
    obsItem (stepRow m r) uid name
      = joinSt (obsItem m uid name)
          (if pMatch uid r then contribOf r name else none) := by
  unfold obsItem stepRow pMatch
  cases htu : toUserId r.user_id with
  | none => simp [joinSt_none_right]
  | some u =>
    by_cases hu : uid = u
    · subst hu
      cases hm : m uid <;>
        simp [hm, updateView_itemStatus, itemLookup_itemAfter, initView, itemLookup_nil, joinSt]
    · simp [hu, Ne.symm hu, joinSt_none_right]

lemma joinSt_assoc (a b c : Option ItemStatusVal) :
    joinSt (joinSt a b) c = joinSt a (joinSt b c) := by
  rcases a with _ | sa <;> rcases b with _ | sb <;> rcases c with _ | sc <;>
    (try cases sa) <;> (try cases sb) <;> (try cases sc) <;> rfl

lemma joinSt_none_left (b : Option ItemStatusVal) : joinSt none b = b := by
  cases b <;> rfl

lemma joinAll_cons (b : Option ItemStatusVal) (l : List (Option ItemStatusVal)) :
    joinAll (b :: l) = joinSt b (joinAll l) := by
  unfold joinAll
  cases hc : l.any (fun x => x = some ItemStatusVal.complete) <;>
    cases hr : l.any (fun x => x = some ItemStatusVal.requested) <;>
    rcases b with _ | sb <;> (try cases sb) <;>
    simp [List.any_cons, hc, hr, joinSt]

lemma foldl_joinSt (l : List (Option ItemStatusVal)) :
    ∀ a, l.foldl joinSt a = joinSt a (joinAll l) := by
  induction l with
  | nil => intro a; simp [joinAll, joinSt_none_right]
  | cons b rest ih =>
    intro a
    simp only [List.foldl_cons]
    rw [ih (joinSt a b), joinSt_assoc, joinAll_cons]

lemma obsItem_spec (rows : List ChecklistRowForStage) (uid : Int) (name : String) :
    obsItem (aggregateChecklistRowsByUser rows) uid name
      = joinAll (rows.map fun r => if pMatch uid r then contribOf r name else none) := by
  unfold aggregateChecklistRowsByUser
  rw [foldl_obs (fun m => obsItem m uid name)
      (fun acc r => joinSt acc (if pMatch uid r then contribOf r name else none))
      (fun m r => obsItem_step m r uid name) rows]
  have hmap : ∀ (l : List ChecklistRowForStage) (a : Option ItemStatusVal),
      l.foldl (fun acc r => joinSt acc (if pMatch uid r then contribOf r name else none)) a
        = (l.map fun r => if pMatch uid r then contribOf r name else none).foldl joinSt a := by
    intro l
    induction l with
    | nil => intro a; rfl
    | cons x xs ih => intro a; simp only [List.foldl_cons, List.map_cons, ih]
  rw [hmap, foldl_joinSt,
    show obsItem (fun _ => none) uid name = none from rfl, joinSt_none_left]

/-! ## Step and fold lemmas for the last-non-null fields -/

lemma obsOpt_step (F : DealView → Option String) (G : ChecklistRowForStage → Option String)
    (hupd : ∀ d r, F (updateView d r) = lnnStep (F d) (G r))
    (hinit : ∀ uid r, F (initView uid r) = G r)
    (m : AggMap) (r : ChecklistRowForStage) (uid : Int) :
    obsOpt F (stepRow m r) uid
      = if pMatch uid r then lnnStep (obsOpt F m uid) (G r) else obsOpt F m uid := by
  unfold obsOpt stepRow pMatch
  cases htu : toUserId r.user_id with
  | none => simp
  | some u =>
    by_cases hu : uid = u
    · subst hu
      cases hm : m uid with
      | none =>
        cases hg : G r <;> simp [hm, hupd, hinit, lnnStep, hg]
      | some d => simp [hm, hupd]
    · simp [hu, Ne.symm hu]

lemma foldl_guard_filter_map {β γ : Type} (p : ChecklistRowForStage → Bool)
    (g : ChecklistRowForStage → β) (f : γ → β → γ) :
    ∀ (rows : List ChecklistRowForStage) (a : γ),
      rows.foldl (fun acc r => if p r then f acc (g r) else acc) a
        = ((rows.filter p).map g).foldl f a := by
  intro rows
  induction rows with
  | nil => intro a; rfl
  | cons x xs ih =>
    intro a
    by_cases hx : p x <;> simp [List.filter_cons, hx, ih]

lemma obsOpt_spec (F : DealView → Option String) (G : ChecklistRowForStage → Option String)
    (hupd : ∀ d r, F (updateView d r) = lnnStep (F d) (G r))
    (hinit : ∀ uid r, F (initView uid r) = G r)
    (rows : List ChecklistRowForStage) (uid : Int) :
    obsOpt F (aggregateChecklistRowsByUser rows) uid
      = lastNonNull ((rows.filter fun r => pMatch uid r).map G) := by
  unfold aggregateChecklistRowsByUser lastNonNull
  rw [foldl_obs (fun m => obsOpt F m uid)
      (fun acc r => if pMatch uid r then lnnStep acc (G r) else acc)
      (fun m r => obsOpt_step F G hupd hinit m r uid) rows,
    foldl_guard_filter_map]
  rfl

lemma obsCd_spec (rows : List ChecklistRowForStage) (uid : Int) :
    obsCd (aggregateChecklistRowsByUser rows) uid
      = lastNonNull ((rows.filter fun r => pMatch uid r).map fun r => r.candidate_decision) :=
  obsOpt_spec _ _ updateView_cd (fun _ _ => rfl) rows uid

lemma obsSd_spec (rows : List ChecklistRowForStage) (uid : Int) :
    obsSd (aggregateChecklistRowsByUser rows) uid
      = lastNonNull ((rows.filter fun r => pMatch uid r).map fun r => r.school_decision) :=
  obsOpt_spec _ _ updateView_sd (fun _ _ => rfl) rows uid

lemma obsCpd_spec (rows : List ChecklistRowForStage) (uid : Int) :
    obsCpd (aggregateChecklistRowsByUser rows) uid
      = lastNonNull ((rows.filter fun r => pMatch uid r).map fun r => r.contract_publish_date) :=
  obsOpt_spec _ _ updateView_cpd (fun _ _ => rfl) rows uid

lemma obsCrd_spec (rows : List ChecklistRowForStage) (uid : Int) :
    obsCrd (aggregateChecklistRowsByUser rows) uid
      = lastNonNull ((rows.filter fun r => pMatch uid r).map fun r => r.contract_return_date) :=
  obsOpt_spec _ _ updateView_crd (fun _ _ => rfl) rows uid

lemma obsCdr_spec (rows : List ChecklistRowForStage) (uid : Int) :
    obsCdr (aggregateChecklistRowsByUser rows) uid
      = lastNonNull ((rows.filter fun r => pMatch uid r).map fun r => r.contract_dep_rec_date) :=
  obsOpt_spec _ _ updateView_cdr (fun _ _ => rfl) rows uid

/-! ## Step and fold lemmas for testShortDescription -/

lemma obsTsd_step (m : AggMap) (r : ChecklistRowForStage) (uid : Int) :
    obsTsd (stepRow m r) uid
      = if pMatch uid r then tsdStep (obsTsd m uid) r.test_short_description
        else obsTsd m uid := by
  unfold obsTsd stepRow pMatch
  cases htu : toUserId r.user_id with
  | none => simp
  | some u =>
    by_cases hu : uid = u
    · subst hu
      cases hm : m uid with
      | none =>
        simp [hm, updateView_tsd, initView, tsdStep, ite_self]
      | some d =>
        simp [hm, updateView_tsd, tsdStep]
    · simp [hu, Ne.symm hu]

lemma obsTsd_spec (rows : List ChecklistRowForStage) (uid : Int) :
    obsTsd (aggregateChecklistRowsByUser rows) uid
      = ((rows.filter fun r => pMatch uid r).map
          fun r => r.test_short_description).foldl tsdStep none := by
  unfold aggregateChecklistRowsByUser
  rw [foldl_obs (fun m => obsTsd m uid)
      (fun acc r => if pMatch uid r then tsdStep acc r.test_short_description else acc)
      (fun m r => obsTsd_step m r uid) rows,
    foldl_guard_filter_map]
  rfl

/-! ## Permutation invariance helpers -/

lemma any_of_perm {α : Type} {l1 l2 : List α} (h : l1.Perm l2) (q : α → Bool) :
    l1.any q = l2.any q := by
  cases h1 : l1.any q <;> cases h2 : l2.any q <;> try rfl
  · rw [List.any_eq_true] at h2
    obtain ⟨x, hx, hq⟩ := h2
    have hx1 := List.any_eq_true.mpr ⟨x, h.mem_iff.mpr hx, hq⟩
    rw [h1] at hx1
    cases hx1
  · rw [List.any_eq_true] at h1
    obtain ⟨x, hx, hq⟩ := h1
    have hx2 := List.any_eq_true.mpr ⟨x, h.mem_iff.mp hx, hq⟩
    rw [h2] at hx2
    cases hx2

lemma joinAll_of_perm {l1 l2 : List (Option ItemStatusVal)} (h : l1.Perm l2) :
    joinAll l1 = joinAll l2 := by
  unfold joinAll
  rw [any_of_perm h, any_of_perm h]

/-! ## String facts for the truthy rule -/

lemma toLowerStr_length (x : String) : (toLowerStr x).length = x.length := by
  rcases x with ⟨l⟩
  simp [toLowerStr, String.length]

lemma length_pos_of_ne_empty (x : String) (h : ¬ x = "") : 0 < x.length := by
  rcases x with ⟨l⟩
  cases l with
  | nil => exact absurd rfl h
  | cons c cs => simp [String.length]

/-! ## Claim C1 -/

/-- C1 counterexample: the spec says the literal strings "false", "no" and "0"
coerce to false, but `truthy` ends in `t.length > 0`, which makes every
non-blank string truthy — including "false", "no" and "0". -/
theorem truthy_false_no_zero_are_truthy :
    truthy (some "false") = true ∧ truthy (some "no") = true
      ∧ truthy (some "0") = true := by
  decide

/-- C1 (amended): null or empty input coerces to false, a whitespace-only
string also coerces to false, and every other string (one with a non-blank
character, including "false", "no" and "0") coerces to true: `truthy` is
exactly "trimmed form is non-empty". -/
theorem truthy_amended_rule :
    truthy none = false ∧ truthy (some "") = false
      ∧ ∀ s : String, truthy (some s) = !(decide (jsTrim s = "")) := by
  refine ⟨rfl, by decide, ?_⟩
  intro s
  by_cases hs : s = ""
  · subst hs; decide
  · have h : truthy (some s)
        = (decide (toLowerStr (jsTrim s) = "true")
          || decide (toLowerStr (jsTrim s) = "yes")
          || decide (toLowerStr (jsTrim s) = "1")
          || decide (0 < (toLowerStr (jsTrim s)).length)) := by
      simp [truthy, hs]
    by_cases hts : jsTrim s = ""
    · rw [h, hts]
      decide
    · have hlen : decide (0 < (toLowerStr (jsTrim s)).length) = true :=
        decide_eq_true (by rw [toLowerStr_length]; exact length_pos_of_ne_empty _ hts)
      rw [h, hlen]
      simp [hts]

/-! ## Guard characterizations of the classifier verdicts -/

/-- The ClosedLost guard shared by stage and substage rule 28. -/
def closedLostCond (d : DealView) : Prop :=
  d.inactive = true ∨ normalize d.candidate_decision = "I Decline"
    ∨ normalize d.school_decision = "Denied"

instance (d : DealView) : Decidable (closedLostCond d) := by
  unfold closedLostCond; infer_instance

lemma stage_closed_lost_iff (d : DealView) :
    determineDealStage d = some "Closed Lost" ↔ closedLostCond d := by
  unfold determineDealStage closedLostCond
  split_ifs with h1 h2 h3 h4 h5 h6 <;> simp_all

lemma stage_closed_won_iff (d : DealView) :
    determineDealStage d = some "Closed Won"
      ↔ (¬ closedLostCond d ∧ d.checklistsCompleted ENROLLMENT_CONTRACT_RECEIVED = true) := by
  unfold determineDealStage closedLostCond
  split_ifs with h1 h2 h3 h4 h5 h6 <;> simp_all

lemma closedLostB_iff (d : DealView) : closedLostB d = true ↔ closedLostCond d := by
  unfold closedLostB closedLostCond
  simp [or_assoc]

lemma ite_some_case {c : Prop} [Decidable c] {k : Nat} {rest : Option Nat} {n : Nat}
    (h : (if c then some k else rest) = some n) : n = k ∨ rest = some n := by
  by_cases hc : c
  · rw [if_pos hc] at h
    exact Or.inl (Option.some.inj h).symm
  · rw [if_neg hc] at h
    exact Or.inr h

lemma rest_range (d : DealView) (n : Nat) (h : determineSubstageRest d = some n) :
    (14 ≤ n ∧ n ≤ 26) ∧ ¬ n = 22 := by
  unfold determineSubstageRest at h
  rcases ite_some_case h with h1 | h
  · omega
  rcases ite_some_case h with h1 | h
  · omega
  rcases ite_some_case h with h1 | h
  · omega
  rcases ite_some_case h with h1 | h
  · omega
  rcases ite_some_case h with h1 | h
  · omega
  rcases ite_some_case h with h1 | h
  · omega
  rcases ite_some_case h with h1 | h
  · omega
  rcases ite_some_case h with h1 | h
  · omega
  rcases ite_some_case h with h1 | h
  · omega
  rcases ite_some_case h with h1 | h
  · omega
  rcases ite_some_case h with h1 | h
  · omega
  rcases ite_some_case h with h1 | h
  · omega
  exact Option.noConfusion h

lemma substage_28_iff (d : DealView) :
    determineSubstage d = some 28 ↔ closedLostCond d := by
  rw [← closedLostB_iff]
  unfold determineSubstage
  by_cases h : closedLostB d = true
  · rw [if_pos h]
    simp [h]
  · rw [if_neg h]
    constructor
    · intro hr
      exfalso
      by_cases hcc : d.checklistsCompleted ENROLLMENT_CONTRACT_RECEIVED = true
      · rw [if_pos hcc] at hr
        simp at hr
      · rw [if_neg hcc] at hr
        exact absurd ((rest_range d 28 hr).1.2) (by omega)
    · intro hb
      exact absurd hb h

lemma substage_27_iff (d : DealView) :
    determineSubstage d = some 27
      ↔ (¬ closedLostCond d ∧ d.checklistsCompleted ENROLLMENT_CONTRACT_RECEIVED = true) := by
  rw [← closedLostB_iff]
  unfold determineSubstage
  by_cases h : closedLostB d = true
  · rw [if_pos h]
    simp [h]
  · rw [if_neg h]
    by_cases hcc : d.checklistsCompleted ENROLLMENT_CONTRACT_RECEIVED = true
    · rw [if_pos hcc]
      simp [h, hcc]
    · rw [if_neg hcc]
      constructor
      · intro hr
        exact absurd ((rest_range d 27 hr).1.2) (by omega)
      · rintro ⟨-, hc⟩
        exact absurd hc hcc

/-! ## Claim C2 -/

/-- C2: whenever the ClosedLost condition (inactive, candidate_decision
"I Decline" or school_decision "Denied") and the ClosedWon condition
(Enrollment Contract Received completed) hold simultaneously, the stage is
"Closed Lost" and the substage is 28: ClosedLost wins in both classifiers. -/
theorem closed_lost_wins_stage_and_substage (d : DealView)
    (hlost : closedLostCond d)
    (hwon : d.checklistsCompleted ENROLLMENT_CONTRACT_RECEIVED = true) :
    determineDealStage d = some "Closed Lost" ∧ determineSubstage d = some 28 :=
  ⟨(stage_closed_lost_iff d).mpr hlost, (substage_28_iff d).mpr hlost⟩

/-- A person view that satisfies both the ClosedLost and the ClosedWon guard. -/
def bothTerminalView : DealView where
  user_id := 4
  checklistsCompleted := fun n => n = ENROLLMENT_CONTRACT_RECEIVED
  itemStatus := []
  testNoShow := false
  testShortDescription := none
  candidate_decision := some "I Decline"
  school_decision := none
  inactive := false
  contract_publish_date := none
  contract_return_date := none
  contract_dep_rec_date := none

/-- C2 witness: the theorem applied to a concrete view satisfying both guards. -/
theorem closed_lost_wins_witness :
    determineDealStage bothTerminalView = some "Closed Lost"
      ∧ determineSubstage bothTerminalView = some 28 :=
  closed_lost_wins_stage_and_substage bothTerminalView
    (Or.inr (Or.inl (by decide))) (by decide)

/-! ## Claim C9 -/

/-- C9: the stage classifier answers "Closed Lost" exactly when the substage
classifier answers 28, and "Closed Won" exactly when the substage classifier
answers 27: both pairs test the same guards in the same relative order. -/
theorem stage_substage_terminal_agreement (d : DealView) :
    (determineDealStage d = some "Closed Lost" ↔ determineSubstage d = some 28)
      ∧ (determineDealStage d = some "Closed Won" ↔ determineSubstage d = some 27) :=
  ⟨(stage_closed_lost_iff d).trans (substage_28_iff d).symm,
   (stage_closed_won_iff d).trans (substage_27_iff d).symm⟩

/-! ## Claim C6 -/

/-- A person view satisfying the substage-27 and substage-14 conditions and
also the ClosedLost guard (inactive). -/
def lostEnrolledView : DealView where
  user_id := 6
  checklistsCompleted := fun n => n = ENROLLMENT_CONTRACT_RECEIVED || n = APPLICATION_FORM
  itemStatus := []
  testNoShow := false
  testShortDescription := none
  candidate_decision := none
  school_decision := none
  inactive := true
  contract_publish_date := none
  contract_return_date := none
  contract_dep_rec_date := none

/-- C6 counterexample: a view satisfying both the rule-27 condition (enrollment
contract complete) and the rule-14 condition (application form complete) need
not classify as 27 — when the ClosedLost guard also holds, rule 28 fires first
and the classifier returns 28. -/
theorem substage_27_not_always :
    lostEnrolledView.checklistsCompleted ENROLLMENT_CONTRACT_RECEIVED = true
      ∧ lostEnrolledView.checklistsCompleted APPLICATION_FORM = true
      ∧ determineSubstage lostEnrolledView = some 28
      ∧ ¬ determineSubstage lostEnrolledView = some 27 := by
  decide

/-- C6 (amended): a view satisfying both the rule-27 and rule-14 conditions
never classifies as substage 14, and classifies as 27 whenever the
higher-priority ClosedLost guard (rule 28) does not also hold. -/
theorem substage_27_beats_14 (d : DealView)
    (h27 : d.checklistsCompleted ENROLLMENT_CONTRACT_RECEIVED = true)
    (h14 : d.checklistsCompleted APPLICATION_FORM = true) :
    ¬ determineSubstage d = some 14
      ∧ (¬ closedLostCond d → determineSubstage d = some 27) := by
  constructor
  · intro h
    by_cases hc : closedLostCond d
    · rw [(substage_28_iff d).mpr hc] at h
      simp at h
    · rw [(substage_27_iff d).mpr ⟨hc, h27⟩] at h
      simp at h
  · intro hc
    exact (substage_27_iff d).mpr ⟨hc, h27⟩

/-- A person view with only the enrollment-contract and application checklists
completed, satisfying no ClosedLost guard. -/
def enrolledOnlyView : DealView where
  user_id := 8
  checklistsCompleted := fun n => n = ENROLLMENT_CONTRACT_RECEIVED || n = APPLICATION_FORM
  itemStatus := []
  testNoShow := false
  testShortDescription := none
  candidate_decision := none
  school_decision := none
  inactive := false
  contract_publish_date := none
  contract_return_date := none
  contract_dep_rec_date := none

/-- C6 witness: the amended theorem applied to a concrete non-ClosedLost view. -/
theorem substage_27_beats_14_witness :
    ¬ determineSubstage enrolledOnlyView = some 14
      ∧ (¬ closedLostCond enrolledOnlyView → determineSubstage enrolledOnlyView = some 27) :=
  substage_27_beats_14 enrolledOnlyView (by decide) (by decide)

/-! ## Claim C7 -/

/-- C7: every non-null substage verdict lies in 13..28, and the values 13
("application sent", set manually downstream) and 22 ("documents missing",
no rule) are never returned. -/
theorem substage_range (d : DealView) (n : Nat)
    (h : determineSubstage d = some n) :
    (13 ≤ n ∧ n ≤ 28) ∧ ¬ n = 13 ∧ ¬ n = 22 := by
  unfold determineSubstage at h
  by_cases h1 : closedLostB d = true
  · rw [if_pos h1] at h
    injection h with h
    omega
  · rw [if_neg h1] at h
    by_cases h2 : d.checklistsCompleted ENROLLMENT_CONTRACT_RECEIVED = true
    · rw [if_pos h2] at h
      injection h with h
      omega
    · rw [if_neg h2] at h
      obtain ⟨⟨ha, hb⟩, hc⟩ := rest_range d n h
      exact ⟨⟨by omega, by omega⟩, by omega, by omega⟩

/-- C7 witness: the range theorem applied at a concrete view classifying 28. -/
theorem substage_range_witness :
    (13 ≤ 28 ∧ 28 ≤ 28) ∧ ¬ 28 = 13 ∧ ¬ 28 = 22 :=
  substage_range lostEnrolledView 28 (by decide)

/-! ## Example rows -/

/-- A raw row with a null person id and every field null. -/
def baseRow : ChecklistRowForStage where
  user_id := .nullv
  checklist_name := none
  checklist_item := none
  date_completed := none
  date_requested := none
  step_status := none
  candidate_decision := none
  school_decision := none
  inactive := none
  contract_publish_date := none
  contract_return_date := none
  contract_dep_rec_date := none
  test_no_show := none
  test_short_description := none

/-- A requested-only "Application Form" item row for person 7. -/
def rowReq7 : ChecklistRowForStage :=
  { baseRow with
      user_id := .num 7
      checklist_item := some "Application Form"
      date_requested := some "2024-01-01" }

/-- A completed "Application Form" item row for person 7. -/
def rowComp7 : ChecklistRowForStage :=
  { baseRow with
      user_id := .num 7
      checklist_item := some "Application Form"
      date_completed := some "2024-01-05" }

/-! ## Claim C3 -/

/-- C3: if any fact of a person counts as complete for a non-empty item name,
the aggregated view's item_status entry for that name is complete, no matter
where in the sequence the fact sits or how many requested-only facts for the
name surround it. -/
theorem item_status_monotone_upgrade (rows : List ChecklistRowForStage)
    (uid : Int) (name : String) (r : ChecklistRowForStage)
    (hmem : r ∈ rows) (huid : toUserId r.user_id = some uid)
    (hname : normalize r.checklist_item = name) (hne : ¬ name = "")
    (hcomp : countsAsComplete r = true) :
    obsItem (aggregateChecklistRowsByUser rows) uid name
      = some ItemStatusVal.complete := by
  rw [obsItem_spec]
  unfold joinAll
  have hp : pMatch uid r = true := by
    unfold pMatch
    rw [huid]
    simp
  have hcontrib : contribOf r name = some ItemStatusVal.complete := by
    unfold contribOf rowStatus
    rw [hcomp]
    simp [hne, hname]
  have hany : (rows.map fun x => if pMatch uid x then contribOf x name else none).any
      (fun x => x = some ItemStatusVal.complete) = true := by
    rw [List.any_eq_true]
    exact ⟨if pMatch uid r then contribOf r name else none,
      List.mem_map_of_mem _ hmem, by rw [if_pos hp, hcontrib]; simp⟩
  rw [if_pos hany]

/-- C3 witness: a complete fact sandwiched between requested-only facts ends
as a complete entry. -/
theorem item_status_monotone_upgrade_witness :
    obsItem (aggregateChecklistRowsByUser [rowReq7, rowComp7, rowReq7]) 7
        "Application Form" = some ItemStatusVal.complete :=
  item_status_monotone_upgrade [rowReq7, rowComp7, rowReq7] 7 "Application Form"
    rowComp7 (by decide) (by decide) (by decide) (by decide) (by decide)

/-! ## Claim C4 -/

/-- A row for person 9 carrying test_short_description "X". -/
def tsdRowX : ChecklistRowForStage :=
  { baseRow with user_id := .num 9, test_short_description := some "X" }

/-- A later row for person 9 carrying the empty-string description. -/
def tsdRowEmpty : ChecklistRowForStage :=
  { baseRow with user_id := .num 9, test_short_description := some "" }

/-- C4 counterexample: the last non-null `test_short_description` seen for
person 9 is the empty string, but the aggregated view keeps "X" — the update
uses JS truthiness (`if (r.test_short_description)`), so an empty string does
not overwrite, refuting "last non-null wins" for this field. -/
theorem tsd_not_last_non_null :
    obsTsd (aggregateChecklistRowsByUser [tsdRowX, tsdRowEmpty]) 9 = some (some "X")
      ∧ lastNonNull (([tsdRowX, tsdRowEmpty].filter fun r => pMatch 9 r).map
          fun r => r.test_short_description) = some "" := by
  constructor
  · rfl
  · rfl

/-- C4 (amended): candidate_decision, school_decision and the three contract
dates each equal the last non-null value among the person's facts in ingestion
order (a later null never erases); test_short_description instead follows the
`tsdStep` reduction: the first fact initializes it and only later non-null,
non-empty values overwrite. -/
theorem last_non_null_fields_spec (rows : List ChecklistRowForStage) (uid : Int) :
    obsCd (aggregateChecklistRowsByUser rows) uid
        = lastNonNull ((rows.filter fun r => pMatch uid r).map fun r => r.candidate_decision)
      ∧ obsSd (aggregateChecklistRowsByUser rows) uid
        = lastNonNull ((rows.filter fun r => pMatch uid r).map fun r => r.school_decision)
      ∧ obsCpd (aggregateChecklistRowsByUser rows) uid
        = lastNonNull ((rows.filter fun r => pMatch uid r).map fun r => r.contract_publish_date)
      ∧ obsCrd (aggregateChecklistRowsByUser rows) uid
        = lastNonNull ((rows.filter fun r => pMatch uid r).map fun r => r.contract_return_date)
      ∧ obsCdr (aggregateChecklistRowsByUser rows) uid
        = lastNonNull ((rows.filter fun r => pMatch uid r).map fun r => r.contract_dep_rec_date)
      ∧ obsTsd (aggregateChecklistRowsByUser rows) uid
        = ((rows.filter fun r => pMatch uid r).map
            fun r => r.test_short_description).foldl tsdStep none :=
  ⟨obsCd_spec rows uid, obsSd_spec rows uid, obsCpd_spec rows uid,
    obsCrd_spec rows uid, obsCdr_spec rows uid, obsTsd_spec rows uid⟩

/-! ## Claim C5 -/

/-- C5: the OR-reduced and upgrade-reduced aggregation outputs — view
existence, `inactive`, `testNoShow`, every `checklistsCompleted` entry and
every item's completion status — are invariant under any permutation of the
input fact sequence. -/
theorem aggregation_perm_invariant (rows1 rows2 : List ChecklistRowForStage)
    (hperm : rows1.Perm rows2) (uid : Int) :
    obsSome (aggregateChecklistRowsByUser rows1) uid
        = obsSome (aggregateChecklistRowsByUser rows2) uid
      ∧ obsInactive (aggregateChecklistRowsByUser rows1) uid
        = obsInactive (aggregateChecklistRowsByUser rows2) uid
      ∧ obsTns (aggregateChecklistRowsByUser rows1) uid
        = obsTns (aggregateChecklistRowsByUser rows2) uid
      ∧ (∀ name, obsCC (aggregateChecklistRowsByUser rows1) uid name
        = obsCC (aggregateChecklistRowsByUser rows2) uid name)
      ∧ (∀ name, obsItem (aggregateChecklistRowsByUser rows1) uid name
        = obsItem (aggregateChecklistRowsByUser rows2) uid name) := by
  refine ⟨?_, ?_, ?_, ?_, ?_⟩
  · rw [obsSome_spec, obsSome_spec]
    exact any_of_perm hperm _
  · rw [obsInactive_spec, obsInactive_spec]
    exact any_of_perm hperm _
  · rw [obsTns_spec, obsTns_spec]
    exact any_of_perm hperm _
  · intro name
    rw [obsCC_spec, obsCC_spec]
    exact any_of_perm hperm _
  · intro name
    rw [obsItem_spec, obsItem_spec]
    exact joinAll_of_perm (hperm.map _)

/-- C5 witness: the invariance theorem applied to a concrete two-row swap. -/
theorem aggregation_perm_invariant_witness :
    obsInactive (aggregateChecklistRowsByUser [rowReq7, rowComp7]) 7
        = obsInactive (aggregateChecklistRowsByUser [rowComp7, rowReq7]) 7
      ∧ obsItem (aggregateChecklistRowsByUser [rowReq7, rowComp7]) 7 "Application Form"
        = obsItem (aggregateChecklistRowsByUser [rowComp7, rowReq7]) 7 "Application Form" :=
  ⟨(aggregation_perm_invariant _ _ (List.Perm.swap rowComp7 rowReq7 []) 7).2.1,
   (aggregation_perm_invariant _ _ (List.Perm.swap rowComp7 rowReq7 []) 7).2.2.2.2
      "Application Form"⟩

/-! ## Claim C8 -/

/-- C8: a fact whose person id is null is silently skipped: dropping it from
the sequence changes no person's aggregation result, so it neither creates a
view nor affects any other person's view (and the aggregator is total, so no
error is possible). -/
theorem null_person_id_skipped (l1 l2 : List ChecklistRowForStage)
    (r : ChecklistRowForStage) (hr : r.user_id = UserIdVal.nullv) (uid : Int) :
    aggregateChecklistRowsByUser (l1 ++ r :: l2) uid
      = aggregateChecklistRowsByUser (l1 ++ l2) uid := by
  unfold aggregateChecklistRowsByUser
  rw [List.foldl_append, List.foldl_append, List.foldl_cons]
  have hskip : stepRow (l1.foldl stepRow fun _ => none) r
      = l1.foldl stepRow (fun _ => none) := by
    unfold stepRow
    rw [hr]
    rfl
  rw [hskip]

/-- A null-person-id row that carries otherwise meaningful fields. -/
def nullRow : ChecklistRowForStage :=
  { baseRow with
      checklist_name := some "Application Form"
      date_completed := some "2024-01-01"
      inactive := some "true" }

/-- C8 witness: the skip theorem applied at a concrete sequence. -/
theorem null_person_id_skipped_witness :
    aggregateChecklistRowsByUser [rowComp7, nullRow] 7
      = aggregateChecklistRowsByUser [rowComp7] 7 :=
  null_person_id_skipped [rowComp7] [] nullRow rfl 7

/-! ## Claim C10 -/

lemma updateView_user_id_irrel (d : DealView) (r : ChecklistRowForStage) (u : UserIdVal) :
    updateView d { r with user_id := u } = updateView d r := rfl

lemma initView_user_id_irrel (uid : Int) (r : ChecklistRowForStage) (u : UserIdVal) :
    initView uid { r with user_id := u } = initView uid r := rfl

lemma stepRow_user_id_congr (m : AggMap) (r : ChecklistRowForStage) (u : UserIdVal)
    (h : toUserId r.user_id = toUserId u) :
    stepRow m r = stepRow m { r with user_id := u } := by
  unfold stepRow
  rw [h]
  rfl

/-- C10: the aggregator accepts person ids delivered as numeric strings — a
fact with user_id string "7" lands in the same view as one with numeric id 7 —
while a fact whose user_id string has no parseable leading integer (parseInt
yields NaN, e.g. "abc") is silently skipped exactly like a null person id. -/
theorem numeric_string_user_ids (l1 l2 : List ChecklistRowForStage)
    (r : ChecklistRowForStage) :
    (r.user_id = UserIdVal.str "7" →
      ∀ uid, aggregateChecklistRowsByUser (l1 ++ r :: l2) uid
        = aggregateChecklistRowsByUser (l1 ++ { r with user_id := UserIdVal.num 7 } :: l2) uid)
    ∧ (r.user_id = UserIdVal.str "abc" →
      ∀ uid, aggregateChecklistRowsByUser (l1 ++ r :: l2) uid
        = aggregateChecklistRowsByUser (l1 ++ l2) uid) := by
  constructor
  · intro h uid
    unfold aggregateChecklistRowsByUser
    rw [List.foldl_append, List.foldl_append, List.foldl_cons, List.foldl_cons,
      stepRow_user_id_congr _ r (UserIdVal.num 7) (by rw [h]; decide)]
  · intro h uid
    unfold aggregateChecklistRowsByUser
    rw [List.foldl_append, List.foldl_append, List.foldl_cons]
    have hskip : stepRow (l1.foldl stepRow fun _ => none) r
        = l1.foldl stepRow (fun _ => none) := by
      unfold stepRow
      rw [show toUserId r.user_id = none from by rw [h]; decide]
    rw [hskip]

/-- A row whose person id is the numeric string "7". -/
def rowStr7 : ChecklistRowForStage :=
  { baseRow with user_id := .str "7", inactive := some "true" }

/-- A row whose person id string has no parseable leading integer. -/
def rowStrAbc : ChecklistRowForStage :=
  { baseRow with user_id := .str "abc", inactive := some "true" }

/-- C10 witness: the theorem applied to concrete single-row sequences. -/
theorem numeric_string_user_ids_witness :
    aggregateChecklistRowsByUser [rowStr7] 7
        = aggregateChecklistRowsByUser [{ rowStr7 with user_id := UserIdVal.num 7 }] 7
      ∧ aggregateChecklistRowsByUser [rowStrAbc] 7 = aggregateChecklistRowsByUser [] 7 :=
  ⟨(numeric_string_user_ids [] [] rowStr7).1 rfl 7,
   (numeric_string_user_ids [] [] rowStrAbc).2 rfl 7⟩

end FmSync
